import Mathlib

/-!
Shallow embedding of `src/examples/postgresql/app.py`, the repository's most
complete variant (the spec's §9 treats the other files as strict subsets):
field coercion and validation, the dynamic partial-update clause builder,
the filtered search, the aggregate statistics and the seed loader, over an
explicit in-memory model of the `items` table.

Modeling conventions:
* Python floats are modeled by exact rationals; decimal literals of the
  source such as `199.99` appear as `mkRat 19999 100`.
* SQL `NOW()` is modeled by a `Nat` clock value passed to each operation.
* `ValueError` (mapped to HTTP 400 by the routes) and the unique-name
  `IntegrityError` (mapped to HTTP 409) are modeled by the `Err` type; the
  error carries the code's literal message string.
* Python's `float()` / `int()` string grammars are modeled for plain decimal
  literals with an optional sign and surrounding whitespace; exponents,
  `inf`/`nan` and digit-group underscores are outside the modeled grammar.
-/

namespace FlaskPg

instance {ε α : Type} [DecidableEq ε] [DecidableEq α] : DecidableEq (Except ε α) := fun a b =>
  match a, b with
  | .ok x, .ok y => if h : x = y then .isTrue (by rw [h]) else .isFalse (by simp [h])
  | .error x, .error y => if h : x = y then .isTrue (by rw [h]) else .isFalse (by simp [h])
  | .ok _, .error _ => .isFalse (by simp)
  | .error _, .ok _ => .isFalse (by simp)

/-- A JSON-ish untyped value, as it arrives in request payloads. -/
inductive JValue where
  | null
  | bool (b : Bool)
  | num (q : ℚ)
  | str (s : String)
deriving DecidableEq

/-- Python truthiness of the modeled values (for `raw or ""` and the like). -/
def truthy : JValue → Bool
  | .null => false
  | .bool b => b
  | .num q => q != 0
  | .str s => !s.isEmpty

/-- Python `str(...)` on the modeled values. Numbers are rendered through
Lean's `Rat` printing; only nonemptiness of the result matters below. -/
def pyStr : JValue → String
  | .null => "None"
  | .bool b => if b then "True" else "False"
  | .num q => toString q
  | .str s => s

/-- ASCII whitespace, as Python's `str.strip` removes it. -/
def isSpaceChar (c : Char) : Bool := c = ' ' || c = '\t' || c = '\n' || c = '\r'

/-- Python `str.strip` over the underlying character list. -/
def stripChars (cs : List Char) : List Char :=
  ((cs.dropWhile isSpaceChar).reverse.dropWhile isSpaceChar).reverse

/-- Python `str.strip`. -/
def pyStrip (s : String) : String := String.mk (stripChars s.toList)

/-- Numeric value of a string of decimal digits. -/
def digitsToNat (cs : List Char) : Nat := cs.foldl (fun n c => 10 * n + (c.toNat - 48)) 0

/-- Split a character list into the groups between the dots. -/
def splitOnDot : List Char → List (List Char)
  | [] => [[]]
  | c :: rest =>
    let r := splitOnDot rest
    if c = '.' then [] :: r
    else
      match r with
      | [] => [[c]]
      | g :: gs => (c :: g) :: gs

/-- Optional leading sign of a Python numeric literal. -/
def takeSign : List Char → Int × List Char
  | '-' :: r => (-1, r)
  | '+' :: r => (1, r)
  | r => (1, r)

/-- Python `float(s)` on the modeled decimal-literal grammar: optional
whitespace and sign, digits with at most one dot, at least one digit. -/
def pyFloatOfString (s : String) : Option ℚ :=
  let p := takeSign (stripChars s.toList)
  match splitOnDot p.2 with
  | [a] =>
    if !a.isEmpty && a.all Char.isDigit then some (mkRat (p.1 * digitsToNat a) 1) else none
  | [a, b] =>
    if !(a.isEmpty && b.isEmpty) && a.all Char.isDigit && b.all Char.isDigit then
      some (mkRat (p.1 * (digitsToNat a * 10 ^ b.length + digitsToNat b)) (10 ^ b.length))
    else none
  | _ => none

/-- Python `float(raw)` over the modeled JSON values: `None` raises
(`TypeError`), bools are 0/1, numbers pass through, strings parse. -/
def pyFloat : JValue → Option ℚ
  | .null => none
  | .bool b => some (if b then 1 else 0)
  | .num q => some q
  | .str s => pyFloatOfString s

/-- Python `int(s)` on the modeled decimal-integer grammar. -/
def pyIntOfString (s : String) : Option Int :=
  let p := takeSign (stripChars s.toList)
  if !p.2.isEmpty && p.2.all Char.isDigit then some (p.1 * digitsToNat p.2) else none

/-- The accessor's error taxonomy: `ValueError` with the code's literal
message (HTTP 400), and the unique-name `IntegrityError` (HTTP 409). -/
inductive Err where
  | validation (msg : String)
  | conflict
deriving DecidableEq

/-- app.py lines 121-125: `str(raw or "").strip()`, error when empty. -/
def _coerce_name (raw : JValue) : Except Err String :=
  let name := pyStrip (if truthy raw then pyStr raw else "")
  if name = "" then .error (.validation "name is required") else .ok name

/-- app.py lines 128-135: `float(raw)`, then the non-negativity check. -/
def _coerce_value (raw : JValue) : Except Err ℚ :=
  match pyFloat raw with
  | none => .error (.validation "value must be a number")
  | some value =>
    if value < 0 then .error (.validation "value must be >= 0") else .ok value

/-- app.py lines 138-139: `str(raw or "").strip()`; never errors. -/
def _coerce_note (raw : JValue) : String :=
  pyStrip (if truthy raw then pyStr raw else "")

/-- A JSON object (Python dict): unique keys, insertion-ordered. -/
abbrev Payload := List (String × JValue)

/-- Python `data.get(k)` (default `None`). -/
def jget (data : Payload) (k : String) : JValue :=
  match data.lookup k with
  | some v => v
  | none => .null

/-- Python `k in data`. -/
def hasKey (data : Payload) (k : String) : Bool := (data.lookup k).isSome

/-- app.py lines 142-147: the coerced (name, value, note) triple. -/
def _parse_create_payload (data : Payload) : Except Err (String × ℚ × String) := do
  let name ← _coerce_name (jget data "name")
  let value ← _coerce_value (jget data "value")
  pure (name, value, _coerce_note (jget data "note"))

/-- A coerced mutable-field value: name and note are strings, value a number. -/
inductive FieldVal where
  | str (s : String)
  | num (q : ℚ)
deriving DecidableEq

/-- app.py lines 150-160: the coerced mapping of exactly the keys present in
the payload, built by the fixed checks name, value, note; error when none of
the three keys is present. -/
def _parse_partial_payload (data : Payload) : Except Err (List (String × FieldVal)) := do
  let f1 ← if hasKey data "name" then do
      let n ← _coerce_name (jget data "name")
      pure [("name", FieldVal.str n)]
    else pure []
  let f2 ← if hasKey data "value" then do
      let v ← _coerce_value (jget data "value")
      pure [("value", FieldVal.num v)]
    else pure []
  let f3 := if hasKey data "note" then
      [("note", FieldVal.str (_coerce_note (jget data "note")))]
    else []
  let fields := f1 ++ f2 ++ f3
  if fields = [] then .error (.validation "provide at least one of name, value, or note")
  else pure fields

/-- A row of the `items` table (`create_items_table`, app.py lines 60-80). -/
structure Item where
  id : Nat
  name : String
  value : ℚ
  note : String
  created_at : Nat
  updated_at : Nat
deriving DecidableEq

/-- The `items` table plus its id sequence (`SERIAL`). -/
structure Store where
  rows : List Item
  nextId : Nat
deriving DecidableEq

/-- A freshly created table: no rows, sequence at 1. -/
def Store.empty : Store := ⟨[], 1⟩

/-- app.py lines 163-174: `INSERT ... RETURNING`; the `UNIQUE(name)`
constraint (an `IntegrityError`) is modeled by the duplicate check. -/
def _insert_item (st : Store) (now : Nat) (name : String) (value : ℚ) (note : String) :
    Except Err (Item × Store) :=
  if st.rows.any (fun r => r.name == name) then .error .conflict
  else
    let it : Item := ⟨st.nextId, name, value, note, now, now⟩
    .ok (it, ⟨st.rows ++ [it], st.nextId + 1⟩)

/-- app.py lines 307-319 (`POST /items`): parse, then insert. -/
def create_item (st : Store) (now : Nat) (data : Payload) : Except Err (Item × Store) := do
  let parsed ← _parse_create_payload data
  _insert_item st now parsed.1 parsed.2.1 parsed.2.2

/-- One dynamic `column = %s` assignment of `_update_item` (app.py line 180)
interpreted against a row: the named mutable column set from its bound value. -/
def applyField (it : Item) (p : String × FieldVal) : Item :=
  if p.1 = "name" then match p.2 with | .str s => { it with name := s } | _ => it
  else if p.1 = "value" then match p.2 with | .num q => { it with value := q } | _ => it
  else if p.1 = "note" then match p.2 with | .str s => { it with note := s } | _ => it
  else it

/-- The SET-clause columns of `_update_item` (app.py line 180), one per
mapping entry, in mapping order. -/
def setColumns (fields : List (String × FieldVal)) : List String := fields.map Prod.fst

/-- The (column, bound value) assignment pairs of the dynamic SET clause: the
columns of line 180 paired positionally with the bound field values of
line 181 (the trailing id parameter belongs to the WHERE clause). -/
def assignmentPairs (fields : List (String × FieldVal)) : List (String × FieldVal) :=
  (setColumns fields).zip (fields.map Prod.snd)

/-- app.py lines 177-193: `UPDATE items SET <assignments>, updated_at = NOW()
WHERE id = %s RETURNING ...`; `.ok none` when the mapping is empty (lines
178-179) or no row has the id; `.error .conflict` when the updated row's name
would duplicate another row's (`UNIQUE` constraint). -/
def _update_item (st : Store) (now : Nat) (item_id : Nat)
    (fields : List (String × FieldVal)) : Except Err (Option (Item × Store)) :=
  if fields = [] then .ok none
  else
    match st.rows.find? (fun r => r.id == item_id) with
    | none => .ok none
    | some it =>
      let it1 := { fields.foldl applyField it with updated_at := now }
      if st.rows.any (fun r => r.id != item_id && r.name == it1.name) then .error .conflict
      else
        .ok (some (it1, { st with rows := st.rows.map (fun r => if r.id == item_id then it1 else r) }))

/-- app.py lines 208-213: `int(raw)` with fallback to the default, clamped
into [1, 100]; never errors. -/
def _parse_limit (raw : Option String) (default : Int) : Int :=
  let limit := match raw with
    | none => default
    | some s =>
      match pyIntOfString s with
      | some n => n
      | none => default
  max 1 (min 100 limit)

/-- Substring containment on character lists. -/
def isInfixChars : List Char → List Char → Bool
  | p, [] => p.isEmpty
  | p, c :: rest => p.isPrefixOf (c :: rest) || isInfixChars p rest

/-- `name ILIKE '%q%'` (app.py line 392): case-insensitive containment. -/
def iLikeContains (s pat : String) : Bool :=
  isInfixChars (pat.toList.map Char.toLower) (s.toList.map Char.toLower)

/-- The conjunction of exactly the filters assembled at app.py lines 389-401:
an absent criterion contributes no conjunct. -/
def rowMatches (nameQ : String) (minV maxV : Option ℚ) (r : Item) : Bool :=
  (if nameQ = "" then true else iLikeContains r.name nameQ) &&
  (match minV with | none => true | some m => decide (m ≤ r.value)) &&
  (match maxV with | none => true | some M => decide (r.value ≤ M))

/-- The ordering of `ORDER BY value DESC`. -/
def valueDesc (a b : Item) : Prop := b.value ≤ a.value

instance : DecidableRel valueDesc := fun a b => inferInstanceAs (Decidable (b.value ≤ a.value))

instance : IsTotal Item valueDesc := ⟨fun a b => le_total b.value a.value⟩

instance : IsTrans Item valueDesc := ⟨fun _ _ _ h1 h2 => le_trans h2 h1⟩

/-- app.py lines 375-412 (`GET /search`): the composed filter, ordered by
value descending (`insertionSort` models the SQL sort: a sorted permutation
of the matches) and truncated to the limit. `q` is stripped at line 378; the
bounds arrive already coerced and the limit already clamped (line 381). -/
def search_items (rows : List Item) (q : String) (minV maxV : Option ℚ) (limit : Nat) :
    List Item :=
  ((rows.filter (rowMatches (pyStrip q) minV maxV)).insertionSort valueDesc).take limit

/-- SQL `MIN(value)` over the rows: `NULL` (none) on an empty table. -/
def aggMin : List ℚ → Option ℚ
  | [] => none
  | v :: vs => some (match aggMin vs with | none => v | some m => min v m)

/-- SQL `MAX(value)` over the rows: `NULL` (none) on an empty table. -/
def aggMax : List ℚ → Option ℚ
  | [] => none
  | v :: vs => some (match aggMax vs with | none => v | some m => max v m)

/-- The row returned by `GET /stats`. -/
structure StatsRow where
  total_rows : Nat
  total_value : ℚ
  min_value : ℚ
  max_value : ℚ
  avg_value : ℚ
deriving DecidableEq

/-- app.py lines 415-440 (`GET /stats`): `COUNT(*)`, `COALESCE(SUM(value),0)`,
`COALESCE(MIN(value),0)`, `COALESCE(MAX(value),0)`, `COALESCE(AVG(value),0)`;
`AVG` is `SUM/COUNT` on a nonempty table. -/
def stats (rows : List Item) : StatsRow :=
  let vs := rows.map (·.value)
  { total_rows := rows.length
    total_value := vs.sum
    min_value := (aggMin vs).getD 0
    max_value := (aggMax vs).getD 0
    avg_value := if rows.isEmpty then 0 else vs.sum / (rows.length : ℚ) }

/-- app.py lines 44-50: the built-in sample items. -/
def SEED_ITEMS : List Payload := [
  [("name", .str "Desk"), ("value", .num (mkRat 19999 100)), ("note", .str "Spacious work surface")],
  [("name", .str "Chair"), ("value", .num (mkRat 895 10)), ("note", .str "Ergonomic and adjustable")],
  [("name", .str "Lamp"), ("value", .num 35), ("note", .str "LED task lighting")],
  [("name", .str "Notebook"), ("value", .num (mkRat 625 100)), ("note", .str "Grid-paper notebook")],
  [("name", .str "Plant"), ("value", .num (mkRat 1875 100)), ("note", .str "Adds a splash of green")]]

/-- An element of the seed request's items list: a JSON object, or some other
JSON value (rejected at app.py lines 262-263). -/
inductive RawItem where
  | obj (fields : Payload)
  | nonObj
deriving DecidableEq

/-- app.py lines 260-267: each entry of the dataset validated independently
with `_parse_create_payload`; the first failure aborts the whole batch with
that entry's error (coercion failures wrapped as `invalid item: ...`). -/
def parseSeedRows : List RawItem → Except Err (List (String × ℚ × String))
  | [] => .ok []
  | .nonObj :: _ => .error (.validation "each item must be an object")
  | .obj e :: rest =>
    match _parse_create_payload e with
    | .error (.validation m) => .error (.validation ("invalid item: " ++ m))
    | .error err => .error err
    | .ok r =>
      match parseSeedRows rest with
      | .error err => .error err
      | .ok rs => .ok (r :: rs)

/-- One row of the seed batch's `INSERT ... ON CONFLICT (name) DO UPDATE SET
value = EXCLUDED.value, note = EXCLUDED.note, updated_at = NOW()` (app.py
lines 276-286). -/
def upsertRow (now : Nat) (st : Store) (row : String × ℚ × String) : Store :=
  if st.rows.any (fun r => r.name == row.1) then
    { st with rows := st.rows.map (fun r =>
        if r.name == row.1 then { r with value := row.2.1, note := row.2.2, updated_at := now }
        else r) }
  else
    { rows := st.rows ++ [⟨st.nextId, row.1, row.2.1, row.2.2, now, now⟩]
      nextId := st.nextId + 1 }

/-- app.py lines 260-297, after the dataset is chosen: validate every entry,
reject an empty validated batch, optionally `TRUNCATE ... RESTART IDENTITY`,
then apply the upserts; returns (store, processed, total_rows). -/
def seedCore (st : Store) (now : Nat) (rep : Bool) (dataset : List RawItem) :
    Except Err (Store × Nat × Nat) :=
  match parseSeedRows dataset with
  | .error e => .error e
  | .ok parsed =>
    if parsed = [] then .error (.validation "no items to insert")
    else
      let st0 := if rep then Store.empty else st
      let st1 := parsed.foldl (upsertRow now) st0
      .ok (st1, parsed.length, st1.rows.length)

/-- The seed payload's `items` field: absent (or another falsy value such as
an empty list seen by `or`), a list, or a truthy non-list value. -/
inductive ItemsField where
  | absent
  | list (l : List RawItem)
  | nonList
deriving DecidableEq

/-- app.py lines 239-297 (`POST /seed`): `payload.get("items") or SEED_ITEMS`
substitutes the samples for an absent or empty items list, a truthy non-list
is rejected, then `seedCore` runs on the chosen dataset. -/
def seed_data (st : Store) (now : Nat) (rep : Bool) (items : ItemsField) :
    Except Err (Store × Nat × Nat) :=
  match items with
  | .nonList => .error (.validation "items must be a JSON list")
  | .absent => seedCore st now rep (SEED_ITEMS.map RawItem.obj)
  | .list l =>
    if l = [] then seedCore st now rep (SEED_ITEMS.map RawItem.obj)
    else seedCore st now rep l

/-! ### Helper lemmas -/

theorem assignmentPairs_eq_self (fields : List (String × FieldVal)) :
    assignmentPairs fields = fields := by
  induction fields with
  | nil => rfl
  | cons p rest ih =>
    simp only [assignmentPairs, setColumns, List.map_cons, List.zip_cons_cons] at ih ⊢
    exact congrArg (_ :: ·) ih

/-! ### C7: value coercion -/

/-- C7 counterexample: at the concrete raw input `-1` the coercion fails with
the code's literal message `value must be >= 0`, not `value must be
non-negative` as the claim words it. -/
theorem coerce_value_message_counterexample :
    _coerce_value (.num (-1)) = .error (.validation "value must be >= 0") ∧
      Err.validation "value must be >= 0" ≠ Err.validation "value must be non-negative" := by
  decide

/-- C7 (amended): for every raw input, `_coerce_value` parses it through the
modeled float grammar; a parse failure yields the validation error
`value must be a number`, a negative parsed value yields the validation error
`value must be >= 0`, and otherwise the parsed non-negative value is
returned. -/
theorem coerce_value_spec (raw : JValue) :
    (pyFloat raw = none → _coerce_value raw = .error (.validation "value must be a number")) ∧
    (∀ v : ℚ, pyFloat raw = some v → v < 0 →
      _coerce_value raw = .error (.validation "value must be >= 0")) ∧
    (∀ v : ℚ, pyFloat raw = some v → 0 ≤ v → _coerce_value raw = .ok v) := by
  refine ⟨fun h => ?_, fun v h hv => ?_, fun v h hv => ?_⟩
  · simp [_coerce_value, h]
  · simp [_coerce_value, h, hv]
  · simp [_coerce_value, h, not_lt.mpr hv]

/-- C7 witness: the three branches of `coerce_value_spec` at concrete raw
inputs. -/
theorem coerce_value_spec_witness :
    _coerce_value (.str "abc") = .error (.validation "value must be a number") ∧
    _coerce_value (.num (-2)) = .error (.validation "value must be >= 0") ∧
    _coerce_value (.str " 7.5 ") = .ok (mkRat 15 2) :=
  ⟨(coerce_value_spec (.str "abc")).1 (by decide),
   (coerce_value_spec (.num (-2))).2.1 (-2) (by decide) (by decide),
   (coerce_value_spec (.str " 7.5 ")).2.2 (mkRat 15 2) (by decide) (by decide)⟩

/-! ### C8: limit coercion -/

/-- C8: `_parse_limit` is a total function (it never errors): it parses the
raw input through the modeled int grammar, falls back to the default when the
input is absent or unparsable, and the result is always clamped into the
inclusive range [1, 100]. -/
theorem parse_limit_spec (raw : Option String) (d : Int) :
    (1 ≤ _parse_limit raw d ∧ _parse_limit raw d ≤ 100) ∧
    (_parse_limit none d = max 1 (min 100 d)) ∧
    (∀ s, raw = some s → pyIntOfString s = none → _parse_limit raw d = max 1 (min 100 d)) ∧
    (∀ s n, raw = some s → pyIntOfString s = some n → _parse_limit raw d = max 1 (min 100 n)) := by
  refine ⟨⟨?_, ?_⟩, ?_, fun s hs hp => ?_, fun s n hs hp => ?_⟩
  · exact le_max_left _ _
  · exact max_le (by norm_num) (min_le_left _ _)
  · rfl
  · simp [_parse_limit, hs, hp]
  · simp [_parse_limit, hs, hp]

/-- C8 witness: `parse_limit_spec` at concrete inputs (an unparsable string,
a parsable one, and the clamping bounds). -/
theorem parse_limit_spec_witness :
    (1 ≤ _parse_limit (some "250") 20 ∧ _parse_limit (some "250") 20 ≤ 100) ∧
    _parse_limit (some "x") 20 = max 1 (min 100 20) ∧
    _parse_limit (some "7") 20 = max 1 (min 100 7) :=
  ⟨(parse_limit_spec (some "250") 20).1,
   (parse_limit_spec (some "x") 20).2.2.1 "x" rfl (by decide),
   (parse_limit_spec (some "7") 20).2.2.2 "7" 7 rfl (by decide)⟩

/-! ### C3: contradictory bounds -/

/-- C3: when both bounds are supplied and the lower one exceeds the upper
one, the composed filter structurally cannot match any row, so the search
returns the empty result set (no error) on every store state. -/
theorem search_min_gt_max_empty (rows : List Item) (q : String) (m M : ℚ) (limit : Nat)
    (h : M < m) : search_items rows q (some m) (some M) limit = [] := by
  have hf : rows.filter (rowMatches (pyStrip q) (some m) (some M)) = [] := by
    rw [List.filter_eq_nil_iff]
    intro r _
    simp only [rowMatches, Bool.and_eq_true, decide_eq_true_eq, not_and]
    intro hab h2
    exact absurd (hab.2.trans h2) (not_le.mpr h)
  simp [search_items, hf]

/-- C3 witness: contradictory bounds 10 > 1 on a one-row store yield the
empty result. -/
theorem search_min_gt_max_empty_witness :
    (1 : ℚ) < 10 ∧
      search_items [⟨1, "Desk", 5, "", 0, 0⟩] "" (some 10) (some 1) 20 = [] :=
  ⟨by decide, search_min_gt_max_empty [⟨1, "Desk", 5, "", 0, 0⟩] "" 10 1 20 (by decide)⟩

/-! ### C1: partial-update clause builder -/

theorem parse_partial_ok_shape (data : Payload) (fields : List (String × FieldVal))
    (h : _parse_partial_payload data = .ok fields) :
    fields ≠ [] ∧
    setColumns fields = ["name", "value", "note"].filter (fun k => hasKey data k) := by
  unfold _parse_partial_payload at h
  cases hn : hasKey data "name" <;> cases hv : hasKey data "value" <;>
      cases hnote : hasKey data "note" <;>
    simp [hn, hv, hnote, bind, Except.bind, pure, Except.pure] at h
  case false.false.true =>
    subst h
    simp [setColumns, hn, hv, hnote]
  case false.true.false =>
    cases hcv : _coerce_value (jget data "value") with
    | error e => rw [hcv] at h; simp at h
    | ok v =>
      rw [hcv] at h
      simp at h
      subst h
      simp [setColumns, hn, hv, hnote]
  case false.true.true =>
    cases hcv : _coerce_value (jget data "value") with
    | error e => rw [hcv] at h; simp at h
    | ok v =>
      rw [hcv] at h
      simp at h
      subst h
      simp [setColumns, hn, hv, hnote]
  case true.false.false =>
    cases hcn : _coerce_name (jget data "name") with
    | error e => rw [hcn] at h; simp at h
    | ok n =>
      rw [hcn] at h
      simp at h
      subst h
      simp [setColumns, hn, hv, hnote]
  case true.false.true =>
    cases hcn : _coerce_name (jget data "name") with
    | error e => rw [hcn] at h; simp at h
    | ok n =>
      rw [hcn] at h
      simp at h
      subst h
      simp [setColumns, hn, hv, hnote]
  case true.true.false =>
    cases hcn : _coerce_name (jget data "name") with
    | error e => rw [hcn] at h; simp at h
    | ok n =>
      rw [hcn] at h
      cases hcv : _coerce_value (jget data "value") with
      | error e => rw [hcv] at h; simp at h
      | ok v =>
        rw [hcv] at h
        simp at h
        subst h
        simp [setColumns, hn, hv, hnote]
  case true.true.true =>
    cases hcn : _coerce_name (jget data "name") with
    | error e => rw [hcn] at h; simp at h
    | ok n =>
      rw [hcn] at h
      cases hcv : _coerce_value (jget data "value") with
      | error e => rw [hcv] at h; simp at h
      | ok v =>
        rw [hcv] at h
        simp at h
        subst h
        simp [setColumns, hn, hv, hnote]

/-- C1 counterexample: on the empty mapping the code fails with its literal
message `provide at least one of name, value, or note`, not
`no fields provided` as the claim words it. -/
theorem partial_clause_empty_message_counterexample :
    _parse_partial_payload [] =
      .error (.validation "provide at least one of name, value, or note") ∧
    Err.validation "provide at least one of name, value, or note" ≠
      Err.validation "no fields provided" := by
  decide

/-- C1 (amended): on a payload with none of the three mutable keys the parse
stage fails with the code's validation error `provide at least one of name,
value, or note`; the clause construction maps a coerced mapping to exactly
one (column, value) pair per entry — the identity pairing, so exactly the
keys present, in the mapping's own order, with no reordering or
deduplication; the timestamp column never appears among the built columns;
and a successfully parsed mapping is nonempty and carries exactly the
payload's present keys. -/
theorem partial_update_clause_spec :
    (∀ data : Payload, hasKey data "name" = false → hasKey data "value" = false →
        hasKey data "note" = false →
        _parse_partial_payload data =
          .error (.validation "provide at least one of name, value, or note")) ∧
    (∀ fields : List (String × FieldVal), assignmentPairs fields = fields) ∧
    (∀ fields : List (String × FieldVal),
        (∀ p ∈ fields, p.1 = "name" ∨ p.1 = "value" ∨ p.1 = "note") →
        "updated_at" ∉ setColumns fields) ∧
    (∀ (data : Payload) (fields : List (String × FieldVal)),
        _parse_partial_payload data = .ok fields →
        fields ≠ [] ∧
          setColumns fields = ["name", "value", "note"].filter (fun k => hasKey data k)) := by
  refine ⟨fun data hn hv hnote => ?_, assignmentPairs_eq_self, fun fields hsub hmem => ?_,
    parse_partial_ok_shape⟩
  · unfold _parse_partial_payload
    simp [hn, hv, hnote, bind, Except.bind, pure, Except.pure]
  · simp only [setColumns, List.mem_map] at hmem
    obtain ⟨p, hp, hpe⟩ := hmem
    rcases hsub p hp with h1 | h1 | h1 <;> rw [h1] at hpe <;> simp at hpe

/-- C1 witness: the builder's parts at concrete inputs. -/
theorem partial_update_clause_spec_witness :
    _parse_partial_payload [("id", JValue.num 3)] =
      .error (.validation "provide at least one of name, value, or note") ∧
    assignmentPairs [("value", FieldVal.num 2), ("note", FieldVal.str "x")] =
      [("value", FieldVal.num 2), ("note", FieldVal.str "x")] ∧
    "updated_at" ∉ setColumns [("value", FieldVal.num 2), ("note", FieldVal.str "x")] ∧
    ([("note", FieldVal.str "x")] ≠ ([] : List (String × FieldVal)) ∧
      setColumns [("note", FieldVal.str "x")] =
        ["name", "value", "note"].filter (fun k => hasKey [("note", JValue.str "x")] k)) :=
  ⟨partial_update_clause_spec.1 [("id", JValue.num 3)] (by decide) (by decide) (by decide),
   partial_update_clause_spec.2.1 _,
   partial_update_clause_spec.2.2.1 _ (by decide),
   partial_update_clause_spec.2.2.2 [("note", JValue.str "x")] [("note", FieldVal.str "x")]
     (by decide)⟩

/-! ### C2: filtered search -/

/-- C2: for every store state and search request, the search returns at most
`limit` rows; the result is ordered by value descending; every returned row
comes from the store and satisfies the conjunction of exactly the predicates
that were supplied (name substring case-insensitively, inclusive bounds); and
an absent predicate constrains nothing — with no criteria the composed filter
keeps every row. -/
theorem search_items_spec (rows : List Item) (q : String) (minV maxV : Option ℚ)
    (limit : Nat) :
    (search_items rows q minV maxV limit).length ≤ limit ∧
    List.Sorted valueDesc (search_items rows q minV maxV limit) ∧
    (∀ r ∈ search_items rows q minV maxV limit,
      r ∈ rows ∧
      (pyStrip q ≠ "" → iLikeContains r.name (pyStrip q) = true) ∧
      (∀ m, minV = some m → m ≤ r.value) ∧
      (∀ M, maxV = some M → r.value ≤ M)) ∧
    rows.filter (rowMatches "" none none) = rows := by
  refine ⟨?_, ?_, ?_, ?_⟩
  · simp only [search_items]
    exact List.length_take_le _ _
  · exact List.Pairwise.sublist (List.take_sublist _ _) (List.sorted_insertionSort _ _)
  · intro r hr
    simp only [search_items] at hr
    have h1 : r ∈ (rows.filter (rowMatches (pyStrip q) minV maxV)).insertionSort valueDesc :=
      List.mem_of_mem_take hr
    rw [List.mem_insertionSort] at h1
    have h2 := List.mem_filter.mp h1
    have hm := h2.2
    simp only [rowMatches, Bool.and_eq_true] at hm
    refine ⟨h2.1, ?_, ?_, ?_⟩
    · intro hq
      have hname := hm.1.1
      rwa [if_neg hq] at hname
    · intro m hmv
      have := hm.1.2
      rw [hmv] at this
      simpa using this
    · intro M hMv
      have := hm.2
      rw [hMv] at this
      simpa using this
  · exact List.filter_eq_self.mpr (fun r _ => by simp [rowMatches])

/-! ### C4: aggregate statistics -/

theorem aggMin_spec (vs : List ℚ) (m : ℚ) (h : aggMin vs = some m) :
    m ∈ vs ∧ ∀ v ∈ vs, m ≤ v := by
  induction vs generalizing m with
  | nil => simp [aggMin] at h
  | cons v rest ih =>
    rw [aggMin] at h
    cases hr : aggMin rest with
    | none =>
      rw [hr] at h
      simp at h
      subst h
      refine ⟨List.mem_cons_self _ _, ?_⟩
      intro x hx
      rcases List.mem_cons.mp hx with rfl | hx
      · exact le_refl _
      · cases rest with
        | nil => simp at hx
        | cons a l => rw [aggMin] at hr; simp at hr
    | some mr =>
      rw [hr] at h
      simp at h
      subst h
      obtain ⟨hmem, hle⟩ := ih mr hr
      refine ⟨?_, ?_⟩
      · rcases le_total v mr with hv | hv
        · rw [min_eq_left hv]; exact List.mem_cons_self _ _
        · rw [min_eq_right hv]; exact List.mem_cons_of_mem _ hmem
      · intro x hx
        rcases List.mem_cons.mp hx with rfl | hx
        · exact min_le_left _ _
        · exact (min_le_right _ _).trans (hle x hx)

theorem aggMax_spec (vs : List ℚ) (m : ℚ) (h : aggMax vs = some m) :
    m ∈ vs ∧ ∀ v ∈ vs, v ≤ m := by
  induction vs generalizing m with
  | nil => simp [aggMax] at h
  | cons v rest ih =>
    rw [aggMax] at h
    cases hr : aggMax rest with
    | none =>
      rw [hr] at h
      simp at h
      subst h
      refine ⟨List.mem_cons_self _ _, ?_⟩
      intro x hx
      rcases List.mem_cons.mp hx with rfl | hx
      · exact le_refl _
      · cases rest with
        | nil => simp at hx
        | cons a l => rw [aggMax] at hr; simp at hr
    | some mr =>
      rw [hr] at h
      simp at h
      subst h
      obtain ⟨hmem, hle⟩ := ih mr hr
      refine ⟨?_, ?_⟩
      · rcases le_total mr v with hv | hv
        · rw [max_eq_left hv]; exact List.mem_cons_self _ _
        · rw [max_eq_right hv]; exact List.mem_cons_of_mem _ hmem
      · intro x hx
        rcases List.mem_cons.mp hx with rfl | hx
        · exact le_max_left _ _
        · exact (hle x hx).trans (le_max_right _ _)

/-- C4: stats on the empty table returns count 0 and sum, min, max and
average all equal to 0; on a nonempty table the count is the number of rows,
the sum is the sum of the values, min and max are attained lower and upper
bounds of the values, the average times the count equals the sum, and the
spec's concrete example (values 10 and 20) yields count 2, sum 30, min 10,
max 20, avg 15. -/
theorem stats_spec :
    stats [] = ⟨0, 0, 0, 0, 0⟩ ∧
    (∀ rows : List Item, rows ≠ [] →
      (stats rows).total_rows = rows.length ∧
      (stats rows).total_value = (rows.map Item.value).sum ∧
      ((stats rows).min_value ∈ rows.map Item.value ∧
        ∀ v ∈ rows.map Item.value, (stats rows).min_value ≤ v) ∧
      ((stats rows).max_value ∈ rows.map Item.value ∧
        ∀ v ∈ rows.map Item.value, v ≤ (stats rows).max_value) ∧
      (stats rows).avg_value * rows.length = (rows.map Item.value).sum) ∧
    stats [⟨1, "a", 10, "", 0, 0⟩, ⟨2, "b", 20, "", 0, 0⟩] = ⟨2, 30, 10, 20, 15⟩ := by
  refine ⟨rfl, ?_, ?_⟩
  · intro rows hne
    obtain ⟨r, rest, rfl⟩ := List.exists_cons_of_ne_nil hne
    refine ⟨rfl, rfl, ?_, ?_, ?_⟩
    · simp only [stats, List.map_cons]
      cases hmin : aggMin (r.value :: rest.map Item.value) with
      | none => rw [aggMin] at hmin; simp at hmin
      | some m =>
        simpa using aggMin_spec _ m hmin
    · simp only [stats, List.map_cons]
      cases hmax : aggMax (r.value :: rest.map Item.value) with
      | none => rw [aggMax] at hmax; simp at hmax
      | some m =>
        simpa using aggMax_spec _ m hmax
    · have hlen : (((r :: rest).length : ℚ)) ≠ 0 :=
        Nat.cast_ne_zero.mpr (fun h0 => List.cons_ne_nil r rest (List.length_eq_zero.mp h0))
      simp only [stats, List.isEmpty_cons, if_false, Bool.false_eq_true]
      exact div_mul_cancel₀ _ hlen
  · simp [stats, aggMin, aggMax]
    norm_num

/-! ### C9: note-only partial update frame -/

/-- C9: a partial update whose mapping holds only the note field succeeds on
an existing row and leaves the row's name, value, id and created_at
unchanged, while updated_at moves strictly forward (the clock `now` lies
strictly after the row's last update, as real time does). -/
theorem note_only_update_frame (st : Store) (now id0 : Nat) (it : Item) (x : String)
    (hfind : st.rows.find? (fun r => r.id == id0) = some it)
    (hname : ∀ r ∈ st.rows, r.id ≠ id0 → r.name ≠ it.name)
    (htime : it.updated_at < now) :
    ∃ p : Item × Store,
      _update_item st now id0 [("note", FieldVal.str x)] = .ok (some p) ∧
      p.1.name = it.name ∧ p.1.value = it.value ∧ p.1.id = it.id ∧
      p.1.created_at = it.created_at ∧ it.updated_at < p.1.updated_at := by
  have hany : st.rows.any (fun r => r.id != id0 && r.name == it.name) = false := by
    rw [List.any_eq_false]
    intro r hr
    simp only [Bool.and_eq_true, bne_iff_ne, beq_iff_eq, not_and]
    exact fun hne => hname r hr hne
  refine ⟨({ it with note := x, updated_at := now },
    { st with rows := st.rows.map (fun r =>
        if r.id == id0 then { it with note := x, updated_at := now } else r) }),
    ?_, rfl, rfl, rfl, rfl, htime⟩
  unfold _update_item
  rw [if_neg (by simp)]
  simp only [hfind]
  simp [applyField, hany]

/-- C9 witness: updating only the note of the one stored row at clock 3. -/
theorem note_only_update_frame_witness :
    ∃ p : Item × Store,
      _update_item ⟨[⟨1, "Desk", 5, "old", 0, 0⟩], 2⟩ 3 1 [("note", FieldVal.str "x")] =
        .ok (some p) ∧
      p.1.name = (⟨1, "Desk", 5, "old", 0, 0⟩ : Item).name ∧
      p.1.value = (⟨1, "Desk", 5, "old", 0, 0⟩ : Item).value ∧
      p.1.id = (⟨1, "Desk", 5, "old", 0, 0⟩ : Item).id ∧
      p.1.created_at = (⟨1, "Desk", 5, "old", 0, 0⟩ : Item).created_at ∧
      (⟨1, "Desk", 5, "old", 0, 0⟩ : Item).updated_at < p.1.updated_at :=
  note_only_update_frame ⟨[⟨1, "Desk", 5, "old", 0, 0⟩], 2⟩ 3 1 ⟨1, "Desk", 5, "old", 0, 0⟩
    "x" (by decide) (by decide) (by decide)

/-! ### C6: name uniqueness -/

/-- C6: name uniqueness is enforced by the store: an insert whose name
duplicates a stored row's fails with the conflict error (no overwrite — no
new store is produced); a partial-update rename to another row's name fails
with the conflict error; and the seed/upsert flow with replace=false
intentionally overwrites the conflicting row's value and note in place
(same id, created_at and name, same row count) — in particular merging two
seed entries with the same name leaves one row reflecting the second
entry's value and note. -/
theorem name_uniqueness_spec :
    (∀ (st : Store) (now : Nat) (name : String) (v : ℚ) (note : String) (r : Item),
      r ∈ st.rows → r.name = name → _insert_item st now name v note = .error .conflict) ∧
    (∀ (st : Store) (now id0 : Nat) (it : Item) (n : String) (r : Item),
      st.rows.find? (fun x => x.id == id0) = some it →
      r ∈ st.rows → r.id ≠ id0 → r.name = n →
      _update_item st now id0 [("name", FieldVal.str n)] = .error .conflict) ∧
    (∀ (st : Store) (now : Nat) (n : String) (v : ℚ) (nt : String) (r : Item),
      r ∈ st.rows → r.name = n →
      (upsertRow now st (n, v, nt)).rows.length = st.rows.length ∧
      ∃ r2 ∈ (upsertRow now st (n, v, nt)).rows,
        r2.id = r.id ∧ r2.name = r.name ∧ r2.value = v ∧ r2.note = nt ∧
        r2.created_at = r.created_at) ∧
    seedCore Store.empty 5 false
        [RawItem.obj [("name", JValue.str "Desk"), ("value", JValue.num 1)],
         RawItem.obj [("name", JValue.str "Desk"), ("value", JValue.num 2),
                      ("note", JValue.str "later")]] =
      .ok (⟨[⟨1, "Desk", 2, "later", 5, 5⟩], 2⟩, 2, 1) := by
  refine ⟨?_, ?_, ?_, by decide⟩
  · intro st now name v note r hr hrn
    unfold _insert_item
    rw [if_pos (List.any_eq_true.mpr ⟨r, hr, by simp [hrn]⟩)]
  · intro st now id0 it n r hfind hr hid hrn
    unfold _update_item
    rw [if_neg (by simp)]
    simp only [hfind]
    have happ : [("name", FieldVal.str n)].foldl applyField it = { it with name := n } := by
      simp [applyField]
    simp only [happ]
    rw [if_pos (List.any_eq_true.mpr ⟨r, hr, by simp [hid, hrn]⟩)]
  · intro st now n v nt r hr hrn
    have hc : st.rows.any (fun x => x.name == n) = true :=
      List.any_eq_true.mpr ⟨r, hr, by simp [hrn]⟩
    unfold upsertRow
    rw [if_pos hc]
    refine ⟨by simp,
      ⟨{ r with value := v, note := nt, updated_at := now }, ?_, rfl, rfl, rfl, rfl, rfl⟩⟩
    apply List.mem_map.mpr
    exact ⟨r, hr, by simp [hrn]⟩

/-! ### C5: seed batch validation -/

theorem parseSeedRows_append_error (pre : List RawItem) (e : Payload) (post : List RawItem)
    (rs : List (String × ℚ × String)) (m : String)
    (hpre : parseSeedRows pre = .ok rs)
    (he : _parse_create_payload e = .error (.validation m)) :
    parseSeedRows (pre ++ RawItem.obj e :: post) =
      .error (.validation ("invalid item: " ++ m)) := by
  induction pre generalizing rs with
  | nil =>
    rw [List.nil_append]
    simp only [parseSeedRows, he]
  | cons hd tl ih =>
    cases hd with
    | nonObj => simp only [parseSeedRows] at hpre; simp at hpre
    | obj e2 =>
      simp only [parseSeedRows] at hpre
      cases hp2 : _parse_create_payload e2 with
      | error err =>
        rw [hp2] at hpre
        cases err <;> simp at hpre
      | ok r2 =>
        rw [hp2] at hpre
        cases htl : parseSeedRows tl with
        | error err => rw [htl] at hpre; simp at hpre
        | ok rs2 =>
          rw [List.cons_append]
          simp only [parseSeedRows, hp2, ih rs2 htl]

/-- C5: each seed entry is validated independently; the first invalid entry
fails the whole batch with that entry's validation error (wrapped with the
route's `invalid item:` prefix) and no store is produced, so no rows are
inserted; and an empty validated batch fails with the validation error
`no items to insert`. -/
theorem seed_batch_validation_spec :
    (∀ (st : Store) (now : Nat) (rep : Bool) (pre : List RawItem) (e : Payload)
        (post : List RawItem) (rs : List (String × ℚ × String)) (m : String),
      parseSeedRows pre = .ok rs →
      _parse_create_payload e = .error (.validation m) →
      seedCore st now rep (pre ++ RawItem.obj e :: post) =
        .error (.validation ("invalid item: " ++ m))) ∧
    (∀ (st : Store) (now : Nat) (rep : Bool) (dataset : List RawItem),
      parseSeedRows dataset = .ok [] →
      seedCore st now rep dataset = .error (.validation "no items to insert")) := by
  constructor
  · intro st now rep pre e post rs m hpre he
    unfold seedCore
    rw [parseSeedRows_append_error pre e post rs m hpre he]
  · intro st now rep dataset hempty
    unfold seedCore
    rw [hempty]
    simp

/-! ### C10: seed default items -/

/-- C10: an absent items field, and equally an explicitly supplied empty
items list, make the seed loader fall back to the five built-in sample
items, which it inserts successfully (processed count 5) instead of
rejecting the request — so the empty list never reaches the empty-batch
validation error; on an initially empty store the inserted rows are exactly
Desk, Chair, Lamp, Notebook, Plant. -/
theorem seed_default_items_spec :
    (∀ (st : Store) (now : Nat) (rep : Bool),
      seed_data st now rep .absent = seedCore st now rep (SEED_ITEMS.map RawItem.obj) ∧
      seed_data st now rep (.list []) = seedCore st now rep (SEED_ITEMS.map RawItem.obj) ∧
      ∃ out : Store × Nat × Nat, seed_data st now rep (.list []) = .ok out ∧ out.2.1 = 5) ∧
    (seed_data Store.empty 7 false (.list [])).map
        (fun out => (out.1.rows.map Item.name, out.2)) =
      .ok (["Desk", "Chair", "Lamp", "Notebook", "Plant"], 5, 5) := by
  constructor
  · intro st now rep
    refine ⟨rfl, rfl, ?_⟩
    have hp : parseSeedRows (SEED_ITEMS.map RawItem.obj) =
        .ok [("Desk", mkRat 19999 100, "Spacious work surface"),
             ("Chair", mkRat 895 10, "Ergonomic and adjustable"),
             ("Lamp", 35, "LED task lighting"),
             ("Notebook", mkRat 625 100, "Grid-paper notebook"),
             ("Plant", mkRat 1875 100, "Adds a splash of green")] := by decide
    show ∃ out : Store × Nat × Nat,
      seedCore st now rep (SEED_ITEMS.map RawItem.obj) = .ok out ∧ out.2.1 = 5
    unfold seedCore
    rw [hp]
    exact ⟨_, rfl, rfl⟩
  · decide

end FlaskPg
